import Mathlib

/-!
Verification of the response-normalization and markup-rendering core of a
single-page chat client (`src/app/page.tsx`).

The JavaScript value universe is shallowly embedded as the mutual inductive
types `JsValue` / `JsList` / `JsFields`.  Modelling restrictions, stated once
here:

* JS numbers are modelled as integers (`Int`); non-integral numbers (and hence
  JSON fractional/exponent literals) are outside the modelled universe, as is
  `NaN`.
* JS string builtins (`JSON.parse`, `JSON.stringify`, `String(..)`, `trim`,
  `split`) are modelled over Lean `String`/`List Char`; the whitespace class is
  Lean `Char.isWhitespace` (space, tab, CR, LF), a subset of the JS `\s` class
  that contains every character appearing in the claims.  The regex
  metacharacter `.` is modelled exactly: it matches any character other than
  the line terminators LF, CR, U+2028 and U+2029 (`isLineTerm`).
* `\uXXXX` escapes encoding surrogate halves are rejected by the modelled
  `JSON.parse` (Lean `Char` cannot represent them).
-/

set_option autoImplicit false

namespace ChatBot

mutual

/-- A JavaScript runtime value, as far as the normalizer can observe it:
`undefined`, `null`, booleans, (integer) numbers, strings, arrays and plain
objects (ordered key/value lists; a later binding of the same key shadows an
earlier one, as in a JS object literal). -/
inductive JsValue where
  | undefV
  | null
  | bool (b : Bool)
  | num (n : Int)
  | str (s : String)
  | arr (elems : JsList)
  | obj (fields : JsFields)
deriving DecidableEq

/-- A list of JS values (an array's element sequence). -/
inductive JsList where
  | nil
  | cons (head : JsValue) (tail : JsList)
deriving DecidableEq

/-- An object's ordered field list. -/
inductive JsFields where
  | nil
  | cons (key : String) (val : JsValue) (tail : JsFields)
deriving DecidableEq

end

/-- Last-binding-wins lookup in an object field list (JS object semantics:
a duplicate key in a literal overwrites the earlier one). -/
def lookupLast (k : String) : JsFields → Option JsValue
  | .nil => none
  | .cons k0 v0 rest =>
    match lookupLast k rest with
    | some v => some v
    | none => if k0 = k then some v0 else none

/-- Property access `v?.k` (optional chaining): reading any of the fields the
source uses (`data`, `response`, `follow_up_suggestions`, `summary`, `text`,
`message`, `answer`, `success`, `error`, `result`) from a non-object —
including `null`/`undefined` under `?.` — yields `undefined`. -/
def getField (v : JsValue) (k : String) : JsValue :=
  match v with
  | .obj fields => (lookupLast k fields).getD .undefV
  | _ => .undefV

/-- JS truthiness: `undefined`, `null`, `false`, `0` and `""` are falsy;
every other modelled value (including empty arrays and objects) is truthy. -/
def truthy : JsValue → Bool
  | .undefV => false
  | .null => false
  | .bool b => b
  | .num n => n != 0
  | .str s => s != ""
  | .arr _ => true
  | .obj _ => true

/-- The test given by the script `typeof v === 'string'`, as a Bool. -/
def isStr : JsValue → Bool
  | .str _ => true
  | _ => false

/-- The test given by `typeof v === 'object'`, as a Bool (true for arrays, objects and `null`). -/
def isObjType : JsValue → Bool
  | .arr _ => true
  | .obj _ => true
  | .null => true
  | _ => false

/-- Loose equality `v == null` (true exactly for `null` and `undefined`). -/
def isNullish : JsValue → Bool
  | .undefV => true
  | .null => true
  | _ => false

/-- The guard `Array.isArray(v) ? v : []` used for `follow_up_suggestions`:
the element list is taken verbatim when the value is an array. -/
def asArr : JsValue → JsList
  | .arr l => l
  | _ => .nil

mutual

/-- String coercion `String(v)`.  Arrays stringify as their elements joined by
commas, with `null`/`undefined` elements contributing the empty string;
objects stringify as `"[object Object]"`. -/
def jsToString : JsValue → String
  | .undefV => "undefined"
  | .null => "null"
  | .bool b => if b then "true" else "false"
  | .num n => toString n
  | .str s => s
  | .arr l => jsArrJoin l
  | .obj _ => "[object Object]"

/-- Comma-joined coercion of array elements, per `Array.prototype.toString`. -/
def jsArrJoin : JsList → String
  | .nil => ""
  | .cons v tl =>
    let piece := if isNullish v then "" else jsToString v
    match tl with
    | .nil => piece
    | _ => piece ++ "," ++ jsArrJoin tl

end

/-- Join a list of strings with a separator. -/
def joinSep (sep : String) : List String → String
  | [] => ""
  | [x] => x
  | x :: rest => x ++ sep ++ joinSep sep rest

/-- Two-space indentation of depth `n`, as produced by
`JSON.stringify(-, null, 2)`. -/
def indentSp (n : Nat) : String :=
  String.mk (List.replicate (2 * n) ' ')

/-- Hex digit for escape sequences (lowercase, as emitted by JS). -/
def hexDigit (n : Nat) : Char :=
  if n < 10 then Char.ofNat (48 + n) else Char.ofNat (87 + n)

/-- JSON string escaping of one character. -/
def escChar (c : Char) : String :=
  if c = '"' then "\\\""
  else if c = '\\' then "\\\\"
  else if c = '\n' then "\\n"
  else if c = '\r' then "\\r"
  else if c = '\t' then "\\t"
  else if c = Char.ofNat 8 then "\\b"
  else if c = Char.ofNat 12 then "\\f"
  else if c.toNat < 32 then
    "\\u00" ++ String.mk [hexDigit (c.toNat / 16), hexDigit (c.toNat % 16)]
  else String.mk [c]

/-- JSON string quoting. -/
def quoteStr (s : String) : String :=
  "\"" ++ String.join (s.toList.map escChar) ++ "\""

/-- Whether a value is `undefined` (object entries with such values are
dropped by `JSON.stringify`). -/
def isUndef : JsValue → Bool
  | .undefV => true
  | _ => false

mutual

/-- Model of `JSON.stringify(v, null, 2)` at nesting level `lvl`.  Object
entries whose value is `undefined` are skipped; `undefined` array elements
serialize as `null` (as does a top-level `undefined`, which the source never
passes: it only stringifies non-null objects and arrays). -/
def jsonStringifyV : Nat → JsValue → String
  | _, .undefV => "null"
  | _, .null => "null"
  | _, .bool b => if b then "true" else "false"
  | _, .num n => toString n
  | _, .str s => quoteStr s
  | lvl, .arr l =>
    match jsonArrLines lvl l with
    | [] => "[]"
    | ls => "[\n" ++ joinSep ",\n" ls ++ "\n" ++ indentSp lvl ++ "]"
  | lvl, .obj fields =>
    match jsonObjLines lvl fields with
    | [] => "\x7b\x7d"
    | ls => "\x7b\n" ++ joinSep ",\n" ls ++ "\n" ++ indentSp lvl ++ "\x7d"

/-- One indented line per array element. -/
def jsonArrLines : Nat → JsList → List String
  | _, .nil => []
  | lvl, .cons v tl =>
    (indentSp (lvl + 1) ++ jsonStringifyV (lvl + 1) v) :: jsonArrLines lvl tl

/-- One indented `"key": value` line per object entry, skipping entries whose
value is `undefined`. -/
def jsonObjLines : Nat → JsFields → List String
  | _, .nil => []
  | lvl, .cons k v tl =>
    if isUndef v then jsonObjLines lvl tl
    else (indentSp (lvl + 1) ++ quoteStr k ++ ": " ++ jsonStringifyV (lvl + 1) v)
      :: jsonObjLines lvl tl

end

/-- Model of `JSON.stringify(v, null, 2)`. -/
def jsonStringify (v : JsValue) : String :=
  jsonStringifyV 0 v

/-! ### `JSON.parse`

A recursive-descent model of the `JSON.parse` builtin over the modelled value
universe.  It accepts exactly the JSON grammar (insignificant whitespace,
`null`/`true`/`false`, integer numbers, strings with escapes, arrays,
objects), failing — as the builtin throws — on anything else; number literals
with a fraction or exponent part lie outside the modelled universe and fail.
The `Nat` argument of the mutual functions is fuel bounding recursion depth;
`jsonParse` supplies one unit per input character plus one, which is ample
because every recursive step first consumes at least one character. -/

/-- JSON insignificant whitespace. -/
def jsonWs (c : Char) : Bool :=
  c = ' ' || c = '\t' || c = '\n' || c = '\r'

/-- Skip insignificant whitespace. -/
def skipWs (cs : List Char) : List Char :=
  cs.dropWhile jsonWs

/-- Value of one hex digit, if any. -/
def hexVal (c : Char) : Option Nat :=
  if '0' ≤ c ∧ c ≤ '9' then some (c.toNat - 48)
  else if 'a' ≤ c ∧ c ≤ 'f' then some (c.toNat - 87)
  else if 'A' ≤ c ∧ c ≤ 'F' then some (c.toNat - 55)
  else none

/-- Parse the body of a JSON string (after the opening quote), returning the
decoded characters and the input after the closing quote.  Unescaped control
characters are invalid; `\uXXXX` must denote a scalar value (surrogate halves
are outside the modelled universe). -/
def parseStrAux : List Char → Option (List Char × List Char)
  | [] => none
  | c :: rest =>
    if c = '"' then some ([], rest)
    else if c = '\\' then
      match rest with
      | [] => none
      | e :: rest2 =>
        if e = '"' ∨ e = '\\' ∨ e = '/' then
          (parseStrAux rest2).map (fun p => (e :: p.1, p.2))
        else if e = 'b' then (parseStrAux rest2).map (fun p => (Char.ofNat 8 :: p.1, p.2))
        else if e = 'f' then (parseStrAux rest2).map (fun p => (Char.ofNat 12 :: p.1, p.2))
        else if e = 'n' then (parseStrAux rest2).map (fun p => ('\n' :: p.1, p.2))
        else if e = 'r' then (parseStrAux rest2).map (fun p => ('\r' :: p.1, p.2))
        else if e = 't' then (parseStrAux rest2).map (fun p => ('\t' :: p.1, p.2))
        else if e = 'u' then
          match rest2 with
          | h1 :: h2 :: h3 :: h4 :: rest6 =>
            match hexVal h1, hexVal h2, hexVal h3, hexVal h4 with
            | some a, some b, some c2, some d =>
              let code := ((a * 16 + b) * 16 + c2) * 16 + d
              if code < 55296 ∨ 57343 < code then
                (parseStrAux rest6).map (fun p => (Char.ofNat code :: p.1, p.2))
              else none
            | _, _, _, _ => none
          | _ => none
        else none
    else if c.toNat < 32 then none
    else (parseStrAux rest).map (fun p => (c :: p.1, p.2))

/-- Decimal value of a digit run. -/
def digitsVal (ds : List Char) : Nat :=
  ds.foldl (fun a c => a * 10 + (c.toNat - 48)) 0

/-- Parse a JSON number literal.  Only integer literals are in the modelled
universe: a fraction or exponent part makes the parse fail, as does a leading
zero (invalid JSON). -/
def parseNum (cs : List Char) : Option (Int × List Char) :=
  let (neg, cs1) :=
    match cs with
    | c :: rest => if c = '-' then (true, rest) else (false, cs)
    | [] => (false, cs)
  let ds := cs1.takeWhile Char.isDigit
  let rest := cs1.dropWhile Char.isDigit
  if ds.isEmpty then none
  else if 1 < ds.length ∧ ds.headD '0' = '0' then none
  else
    let n : Int := if neg then -(digitsVal ds : Int) else (digitsVal ds : Int)
    match rest with
    | c :: _ => if c = '.' ∨ c = 'e' ∨ c = 'E' then none else some (n, rest)
    | [] => some (n, [])

mutual

/-- Parse one JSON value starting at the head of the input (callers have
already skipped leading whitespace). -/
def parseVal : Nat → List Char → Option (JsValue × List Char)
  | 0, _ => none
  | _ + 1, [] => none
  | fuel + 1, c :: rest =>
    if c = 'n' then
      if ['u', 'l', 'l'].isPrefixOf rest then some (.null, rest.drop 3) else none
    else if c = 't' then
      if ['r', 'u', 'e'].isPrefixOf rest then some (.bool true, rest.drop 3) else none
    else if c = 'f' then
      if ['a', 'l', 's', 'e'].isPrefixOf rest then some (.bool false, rest.drop 4) else none
    else if c = '"' then
      (parseStrAux rest).map (fun p => (.str (String.mk p.1), p.2))
    else if c = '[' then
      match skipWs rest with
      | ']' :: r2 => some (.arr .nil, r2)
      | r2 => (parseItems fuel r2).map (fun p => (.arr p.1, p.2))
    else if c = '\x7b' then
      match skipWs rest with
      | '\x7d' :: r2 => some (.obj .nil, r2)
      | r2 => (parseMembers fuel r2).map (fun p => (.obj p.1, p.2))
    else if c = '-' ∨ c.isDigit then
      (parseNum (c :: rest)).map (fun p => (.num p.1, p.2))
    else none

/-- Parse the non-empty element list of an array, up to and including the
closing bracket. -/
def parseItems : Nat → List Char → Option (JsList × List Char)
  | 0, _ => none
  | fuel + 1, cs =>
    (parseVal fuel cs).bind (fun p =>
      match skipWs p.2 with
      | ',' :: r2 => (parseItems fuel (skipWs r2)).map (fun q => (.cons p.1 q.1, q.2))
      | ']' :: r2 => some (.cons p.1 .nil, r2)
      | _ => none)

/-- Parse the non-empty member list of an object, up to and including the
closing brace. -/
def parseMembers : Nat → List Char → Option (JsFields × List Char)
  | 0, _ => none
  | fuel + 1, cs =>
    match cs with
    | '"' :: r =>
      (parseStrAux r).bind (fun kp =>
        match skipWs kp.2 with
        | ':' :: r3 =>
          (parseVal fuel (skipWs r3)).bind (fun p =>
            match skipWs p.2 with
            | ',' :: r5 =>
              (parseMembers fuel (skipWs r5)).map
                (fun q => (.cons (String.mk kp.1) p.1 q.1, q.2))
            | '\x7d' :: r5 => some (.cons (String.mk kp.1) p.1 .nil, r5)
            | _ => none)
        | _ => none)
    | _ => none

end

/-- Model of `JSON.parse(s)`: `some v` on success, `none` where the builtin throws a
`SyntaxError`.  Trailing non-whitespace input is an error. -/
def jsonParse (s : String) : Option JsValue :=
  let cs := skipWs s.toList
  match parseVal (cs.length + 1) cs with
  | some (v, rest) => if (skipWs rest).isEmpty then some v else none
  | none => none

/-! ### The response normalizer (`parseAgentResponse`, page.tsx lines 101-160)

The source wraps the whole strategy chain in `try ... catch` and the
JSON-parsing strategy in an inner `try ... catch`.  `parseAgentResponseE`
is the body of the outer `try`, with `Except` as the exception effect: the
inner catch appears as the `none` branch of the `jsonParse` match, and in the
modelled universe no other operation in the chain can throw, so every branch
ends in `Except.ok`.  `parseAgentResponse` adds the outer catch, which lands
on the fixed `"Unable to parse response."` result. -/

/-- The normalizer's output contract: a display text and the follow-up
suggestion sequence (taken verbatim from the payload, hence arbitrary JS
values, not necessarily strings). -/
structure NormalizedResponse where
  text : String
  suggestions : JsList
deriving DecidableEq

/-- Generic fallback (page.tsx lines 145-154), reached when no earlier
strategy returned: try `summary`, `text`, `message`, `answer` under JS
truthiness; then a non-nullish payload is serialized (objects, via
`JSON.stringify(-, null, 2)`) or coerced (primitives, via `String(..)`);
a nullish payload yields the fixed `"No response received."`. -/
def genericFallback (result : JsValue) : NormalizedResponse :=
  if truthy (getField result "summary") then
    ⟨jsToString (getField result "summary"), .nil⟩
  else if truthy (getField result "text") then
    ⟨jsToString (getField result "text"), .nil⟩
  else if truthy (getField result "message") then
    ⟨jsToString (getField result "message"), .nil⟩
  else if truthy (getField result "answer") then
    ⟨jsToString (getField result "answer"), .nil⟩
  else if !(isNullish result) then
    if isObjType result then ⟨jsonStringify result, .nil⟩
    else ⟨jsToString result, .nil⟩
  else
    ⟨"No response received.", .nil⟩

/-- The string-payload strategy (page.tsx lines 124-143): parse the payload
as JSON inside an inner `try`; on success extract the nested shape (with
suggestions) or a truthy `response` field (without); a `SyntaxError` is
caught and the original string returned; a parse that matches neither shape
falls through to the generic fallback applied to the original string. -/
def stringStrategy (s : String) : NormalizedResponse :=
  match jsonParse s with
  | some parsed =>
    if truthy (getField (getField parsed "data") "response") then
      ⟨jsToString (getField (getField parsed "data") "response"),
        asArr (getField (getField parsed "data") "follow_up_suggestions")⟩
    else if truthy (getField parsed "response") then
      ⟨jsToString (getField parsed "response"), .nil⟩
    else
      genericFallback (.str s)
  | none => ⟨s, .nil⟩

/-- Strategies 3 and 4, shared by the two non-matching branches of the flat
check. -/
def restStrategies (result : JsValue) : NormalizedResponse :=
  match result with
  | .str s => stringStrategy s
  | _ => genericFallback result

/-- Body of the outer `try` of `parseAgentResponse`: the ordered strategy
chain.  Strategy 1 (nested, truthy `data.response`), strategy 2 (flat,
`response` truthy and of string type), strategy 3 (string payload), then the
generic fallback.  Every modelled operation in the chain is total, so every
branch is `Except.ok`. -/
def parseAgentResponseE (result : JsValue) : Except String NormalizedResponse :=
  if truthy (getField (getField result "data") "response") then
    Except.ok
      ⟨jsToString (getField (getField result "data") "response"),
        asArr (getField (getField result "data") "follow_up_suggestions")⟩
  else
    match getField result "response" with
    | .str s =>
      if s = "" then Except.ok (restStrategies result)
      else Except.ok ⟨s, asArr (getField result "follow_up_suggestions")⟩
    | _ => Except.ok (restStrategies result)

/-- The function `parseAgentResponse` with the outer catch: an exception escaping the
strategy chain would be replaced by the fixed `"Unable to parse response."`
with empty suggestions. -/
def parseAgentResponse (result : JsValue) : NormalizedResponse :=
  match parseAgentResponseE result with
  | .ok r => r
  | .error _ => ⟨"Unable to parse response.", .nil⟩

/-! ### The markup renderer (`MarkdownRenderer`, page.tsx lines 189-231)

Each line of the content (split on newlines) is trimmed and classified
independently into a `Block`.  The numbered-item test is the regex
`^(\d+)\.\s(.+)`, modelled including the greedy-with-backtracking semantics
of `\d+` (`numFromRegex`) and the character class of `.`, which matches any
character except the line terminators LF, CR, U+2028 and U+2029: the greedy
`(.+)` capture runs from the single `\s` separator to the first line
terminator (or the end of the line) and must be non-empty, so a carriage
return truncates the captured content, and a remainder that begins with one
fails the match entirely. -/

/-- Model of `line.trim()`: strip leading and trailing whitespace. -/
def trimChars (cs : List Char) : List Char :=
  ((cs.dropWhile Char.isWhitespace).reverse.dropWhile Char.isWhitespace).reverse

/-- The JS line terminators (LF, CR, U+2028, U+2029), the characters the
regex metacharacter `.` does not match. -/
def isLineTerm (c : Char) : Bool :=
  c = '\n' || c = '\r' || c = Char.ofNat 8232 || c = Char.ofNat 8233

/-- One line-level render block, carrying its raw (not yet inline-parsed)
content text. -/
inductive Block where
  | blank
  | heading (level : Nat) (text : String)
  | bullet (text : String)
  | numbered (idx : String) (text : String)
  | para (text : String)
deriving DecidableEq

/-- Attempt the numbered-item match with a digit-run of exactly `k` digits:
`k` digits, a dot, one whitespace character, then the greedy `(.+)` capture —
the run of characters up to the first line terminator, which must be
non-empty. -/
def numCheckAt (k : Nat) (t : List Char) : Option (String × String) :=
  let ds := t.take k
  match t.drop k with
  | c :: w :: rest =>
    if ds.all Char.isDigit ∧ c = '.' ∧ w.isWhitespace ∧
        rest.takeWhile (fun c2 => !(isLineTerm c2)) ≠ [] then
      some (String.mk ds, String.mk (rest.takeWhile (fun c2 => !(isLineTerm c2))))
    else none
  | _ => none

/-- Greedy `\d+` with backtracking: try the digit-run lengths from the
maximal one down to 1. -/
def numTryLens : Nat → List Char → Option (String × String)
  | 0, _ => none
  | k + 1, t =>
    match numCheckAt (k + 1) t with
    | some r => some r
    | none => numTryLens k t

/-- The anchored regex `^(\d+)\.\s(.+)`: the captured digit string and the
captured text after the single whitespace character (up to the first line
terminator). -/
def numFromRegex (t : List Char) : Option (String × String) :=
  numTryLens (t.takeWhile Char.isDigit).length t

/-- Classification of one (already split) line, following the source order:
blank, `"### "`/`"## "`/`"# "` headings, `"- "`/`"* "` bullets, the numbered
regex, else paragraph. -/
def classifyLine (line : String) : Block :=
  let t := trimChars line.toList
  if t = [] then .blank
  else if ("### ".toList).isPrefixOf t then .heading 3 (String.mk (t.drop 4))
  else if ("## ".toList).isPrefixOf t then .heading 2 (String.mk (t.drop 3))
  else if ("# ".toList).isPrefixOf t then .heading 1 (String.mk (t.drop 2))
  else if ("- ".toList).isPrefixOf t || ("* ".toList).isPrefixOf t then
    .bullet (String.mk (t.drop 2))
  else
    match numFromRegex t with
    | some (idx, rest) => .numbered idx rest
    | none => .para (String.mk t)

/-- Splitting on newlines (the model of `content.split('\n')`): accumulate
the current line (in reverse) until a newline or the end of input. -/
def splitNlAux : List Char → List Char → List (List Char)
  | acc, [] => [acc.reverse]
  | acc, c :: rest =>
    if c = '\n' then acc.reverse :: splitNlAux [] rest
    else splitNlAux (c :: acc) rest

/-- Model of `content.split('\n')`. -/
def splitLines (content : String) : List String :=
  (splitNlAux [] content.toList).map String.mk

/-- The block pass of the renderer: split on newlines, classify each line
independently. -/
def renderBlocks (content : String) : List Block :=
  (splitLines content).map classifyLine

/-! ### The inline span scanner (`renderInline`, page.tsx lines 162-187)

The regex alternation of non-greedy bold (`\*\*(.+?)\*\*`) and inline code
(backtick, `(.+?)`, backtick) is scanned left to right: at each position a
bold match is attempted, then a code match; the lazy `(.+?)` takes the
shortest non-empty content ending at the earliest closing marker, and `.`
does not cross a line terminator (LF, CR, U+2028, U+2029).  Unmatched
characters accumulate into plain spans. -/

/-- An inline span: plain text, `**bold**`, or backtick-delimited code. -/
inductive Span where
  | plain (t : String)
  | bold (t : String)
  | code (t : String)
deriving DecidableEq

/-- The backtick character. -/
def btick : Char := Char.ofNat 96

/-- Search for the earliest `**` in the input; on success return the content
before it (each character matched by `.`, hence not a line terminator) and
the input after it. -/
def boldAux : List Char → Option (List Char × List Char)
  | [] => none
  | [_] => none
  | c1 :: c2 :: rest =>
    if c1 = '*' ∧ c2 = '*' then some ([], rest)
    else if isLineTerm c1 then none
    else (boldAux (c2 :: rest)).map (fun p => (c1 :: p.1, p.2))

/-- Lazy match `(.+?)\*\*`: at least one content character, then the earliest
closing `**`. -/
def boldClose : List Char → Option (List Char × List Char)
  | [] => none
  | c :: rest =>
    if isLineTerm c then none
    else (boldAux rest).map (fun p => (c :: p.1, p.2))

/-- Search for the earliest closing backtick. -/
def codeAux : List Char → Option (List Char × List Char)
  | [] => none
  | c :: rest =>
    if c = btick then some ([], rest)
    else if isLineTerm c then none
    else (codeAux rest).map (fun p => (c :: p.1, p.2))

/-- Lazy ``(.+?)` ``: at least one content character, then the earliest
closing backtick. -/
def codeClose : List Char → Option (List Char × List Char)
  | [] => none
  | c :: rest =>
    if isLineTerm c then none
    else (codeAux rest).map (fun p => (c :: p.1, p.2))

/-- Try to match a bold or code span starting exactly at the head of the
input (bold is the first alternative of the regex). -/
def tryMatchAt : List Char → Option (Span × List Char)
  | [] => none
  | [_] => none
  | c1 :: c2 :: rest =>
    if c1 = '*' ∧ c2 = '*' then
      (boldClose rest).map (fun p => (Span.bold (String.mk p.1), p.2))
    else if c1 = btick then
      (codeClose (c2 :: rest)).map (fun p => (Span.code (String.mk p.1), p.2))
    else none

/-- Emit the pending unmatched characters (accumulated in reverse) as a
single plain span, if any. -/
def flushAcc (acc : List Char) (spans : List Span) : List Span :=
  match acc with
  | [] => spans
  | _ => .plain (String.mk acc.reverse) :: spans

/-- The scanning loop of `renderInline`: `acc` holds the pending unmatched
characters in reverse; at each position the regex is tried, a match emits the
pending plain span and the matched span and resumes after it.  The fuel is at
least the input length, and every step consumes at least one character. -/
def scanAux : Nat → List Char → List Char → List Span
  | _, acc, [] => flushAcc acc []
  | 0, acc, cs => flushAcc acc [.plain (String.mk cs)]
  | fuel + 1, acc, c :: rest =>
    match tryMatchAt (c :: rest) with
    | some (sp, rest2) => flushAcc acc (sp :: scanAux fuel [] rest2)
    | none => scanAux fuel (c :: acc) rest

/-- The inline span parser: scan the whole text.  (For empty input the source
returns the empty text itself instead of an empty part array; both render as
no spans, modelled as `[]`.) -/
def renderInline (text : String) : List Span :=
  scanAux text.toList.length [] text.toList

/-- The marker-restoring text of a span, used to state that the scanner
neither loses nor invents characters. -/
def spanText : Span → String
  | .plain t => t
  | .bold t => "**" ++ t ++ "**"
  | .code t => String.mk [btick] ++ t ++ String.mk [btick]

/-- Concatenation of the restored span texts. -/
def spanJoin : List Span → String
  | [] => ""
  | sp :: rest => spanText sp ++ spanJoin rest

/-! ### The per-turn state machine (`sendMessage`, page.tsx lines 353-416)

The claim-relevant component state is the transcript, the loading flag and
the id counter (`idCounterRef`); presentational state (input value, textarea
height, scroll position, active-agent indicator) is omitted.  The awaited
`callAIAgent` result is an external input, modelled as an `AgentOutcome`:
either a returned value or a thrown (transport) error.  Timestamps are
opaque strings produced externally; `ts` is the one taken at submission and
`rts` the one taken when the call settles.  The returned `Bool` records
whether the agent call was issued at all. -/

/-- Transcript entry role. -/
inductive Role where
  | user
  | assistant
deriving DecidableEq

/-- A transcript entry (the `ChatMessage` interface).  `content` is a
`JsValue` because the error branch stores `result?.error` (or the nested
message) without coercing it to a string; every other branch stores a
string. -/
structure ChatMessage where
  id : String
  role : Role
  content : JsValue
  timestamp : String
  followUpSuggestions : Option JsList
  isError : Bool

/-- The claim-relevant component state. -/
structure AppState where
  messages : List ChatMessage
  isLoading : Bool
  idCounter : Nat

/-- The outcome of `await callAIAgent(...)`: a value, or a thrown transport
error. -/
inductive AgentOutcome where
  | ok (result : JsValue)
  | threw

/-- Short-circuiting `a || b` on JS values: the first truthy operand. -/
def jsOr (a b : JsValue) : JsValue :=
  if truthy a then a else b

/-- Message id from `getNextId` (page.tsx lines 336-339). -/
def msgId (n : Nat) : String :=
  "msg-" ++ toString n

/-- One submission attempt (`sendMessage`).  Returns the successor state and
whether `callAIAgent` was invoked.  An empty-after-trim submission or one
made while `isLoading` returns immediately with the state unchanged.
Otherwise the user message is appended, the call is made, and exactly one
assistant entry is appended: the normalized success message, the
error-flagged `success: false` message, or the error-flagged network-failure
message; the `finally` clause clears the loading flag. -/
def sendMessage (st : AppState) (text ts rts : String) (outcome : AgentOutcome) :
    AppState × Bool :=
  let trimmed := String.mk (trimChars text.toList)
  if trimmed = "" || st.isLoading then (st, false)
  else
    let n1 := st.idCounter + 1
    let userMessage : ChatMessage :=
      ⟨msgId n1, .user, .str trimmed, ts, none, false⟩
    let n2 := n1 + 1
    match outcome with
    | .ok result =>
      if truthy (getField result "success") then
        let parsed := parseAgentResponse (getField (getField result "response") "result")
        let assistantMessage : ChatMessage :=
          ⟨msgId n2, .assistant,
            .str (if parsed.text = ""
              then "I received your message but have no response to display."
              else parsed.text),
            rts, some parsed.suggestions, false⟩
        (⟨st.messages ++ [userMessage, assistantMessage], false, n2⟩, true)
      else
        let errorMessage : ChatMessage :=
          ⟨msgId n2, .assistant,
            jsOr (getField result "error")
              (jsOr (getField (getField result "response") "message")
                (.str "Something went wrong. Please try again.")),
            rts, none, true⟩
        (⟨st.messages ++ [userMessage, errorMessage], false, n2⟩, true)
    | .threw =>
      let errorMessage : ChatMessage :=
        ⟨msgId n2, .assistant,
          .str "A network error occurred. Please check your connection and try again.",
          rts, none, true⟩
      (⟨st.messages ++ [userMessage, errorMessage], false, n2⟩, true)

/-! ### Claim-side definitions

Definitions written from the words of the specification (not from the
source), used to state refinement claims about the line classifier. -/

/-- Numbered-item pattern exactly as the claim words it: one-or-more digits,
then a dot, then exactly one space character, then non-empty remaining
text. -/
def numSpec (t : List Char) : Option (String × String) :=
  match t.dropWhile Char.isDigit with
  | c :: w :: rest =>
    if t.takeWhile Char.isDigit ≠ [] ∧ c = '.' ∧ w = ' ' ∧ rest ≠ [] then
      some (String.mk (t.takeWhile Char.isDigit), String.mk rest)
    else none
  | _ => none

/-- Numbered-item pattern amended to what the source regex accepts: the
single separator character may be any whitespace character (`\s`), not only
a space, and the captured content is the remaining text only up to the first
line terminator (the class of `.`), of which there must be at least one
character. -/
def numSpecA (t : List Char) : Option (String × String) :=
  match t.dropWhile Char.isDigit with
  | c :: w :: rest =>
    if t.takeWhile Char.isDigit ≠ [] ∧ c = '.' ∧ w.isWhitespace ∧
        rest.takeWhile (fun c2 => !(isLineTerm c2)) ≠ [] then
      some (String.mk (t.takeWhile Char.isDigit),
        String.mk (rest.takeWhile (fun c2 => !(isLineTerm c2))))
    else none
  | _ => none

/-- Line classification as the claim states it (with the exactly-one-space
numbered rule). -/
def classifySpec (line : String) : Block :=
  let t := trimChars line.toList
  if t = [] then .blank
  else if ("### ".toList).isPrefixOf t then .heading 3 (String.mk (t.drop 4))
  else if ("## ".toList).isPrefixOf t then .heading 2 (String.mk (t.drop 3))
  else if ("# ".toList).isPrefixOf t then .heading 1 (String.mk (t.drop 2))
  else if ("- ".toList).isPrefixOf t || ("* ".toList).isPrefixOf t then
    .bullet (String.mk (t.drop 2))
  else
    match numSpec t with
    | some (idx, rest) => .numbered idx rest
    | none => .para (String.mk t)

/-- Line classification as the claim states it, amended only in the numbered
rule (any single whitespace separator). -/
def classifySpecA (line : String) : Block :=
  let t := trimChars line.toList
  if t = [] then .blank
  else if ("### ".toList).isPrefixOf t then .heading 3 (String.mk (t.drop 4))
  else if ("## ".toList).isPrefixOf t then .heading 2 (String.mk (t.drop 3))
  else if ("# ".toList).isPrefixOf t then .heading 1 (String.mk (t.drop 2))
  else if ("- ".toList).isPrefixOf t || ("* ".toList).isPrefixOf t then
    .bullet (String.mk (t.drop 2))
  else
    match numSpecA t with
    | some (idx, rest) => .numbered idx rest
    | none => .para (String.mk t)

/-! ## Theorems -/

/-! ### Shared helper lemmas -/

theorem strMk_toList (s : String) : String.mk s.toList = s := by
  cases s
  rfl

theorem toList_append (a b : String) : (a ++ b).toList = a.toList ++ b.toList := by
  cases a
  cases b
  rfl

theorem strMk_append (a b : List Char) :
    String.mk (a ++ b) = String.mk a ++ String.mk b := rfl

theorem empty_append_str (s : String) : "" ++ s = s := by
  cases s
  rfl

theorem takeWhile_all_true {p : Char → Bool} :
    ∀ t : List Char, (t.takeWhile p).all p = true := by
  intro t
  induction t with
  | nil => rfl
  | cons c tl ih =>
    by_cases h : p c = true
    · simp [List.takeWhile, h, ih]
    · simp [List.takeWhile, Bool.eq_false_iff.mpr h]

theorem take_takeWhile_length {p : Char → Bool} :
    ∀ t : List Char, t.take (t.takeWhile p).length = t.takeWhile p := by
  intro t
  induction t with
  | nil => rfl
  | cons c tl ih =>
    by_cases h : p c = true
    · simp [List.takeWhile, h, ih]
    · simp [List.takeWhile, Bool.eq_false_iff.mpr h]

theorem drop_takeWhile_length {p : Char → Bool} :
    ∀ t : List Char, t.drop (t.takeWhile p).length = t.dropWhile p := by
  intro t
  induction t with
  | nil => rfl
  | cons c tl ih =>
    by_cases h : p c = true
    · simp [List.takeWhile, List.dropWhile, h, ih]
    · simp [List.takeWhile, List.dropWhile, Bool.eq_false_iff.mpr h]

theorem drop_head_digit {p : Char → Bool} :
    ∀ (t : List Char) (j : Nat), j < (t.takeWhile p).length →
      ∃ c cs, t.drop j = c :: cs ∧ p c = true := by
  intro t
  induction t with
  | nil => intro j h; simp [List.takeWhile] at h
  | cons a tl ih =>
    intro j h
    by_cases ha : p a = true
    · cases j with
      | zero => exact ⟨a, tl, rfl, ha⟩
      | succ j2 =>
        simp only [List.takeWhile, ha, List.length_cons] at h
        exact ih j2 (Nat.lt_of_succ_lt_succ h)
    · simp [List.takeWhile, Bool.eq_false_iff.mpr ha] at h

/-- Backtracking the regex `\d+` to fewer digits than the maximal run never
helps: the dot of the pattern would have to match a digit. -/
theorem numCheckAt_none_lt (t : List Char) (j : Nat)
    (h : j < (t.takeWhile Char.isDigit).length) : numCheckAt j t = none := by
  obtain ⟨c, cs, hd, hc⟩ := drop_head_digit t j h
  unfold numCheckAt
  rw [hd]
  cases cs with
  | nil => rfl
  | cons w rest =>
    have hne : ¬ c = '.' := by
      intro he
      rw [he] at hc
      exact absurd hc (by decide)
    simp [hne]

theorem numTryLens_none (t : List Char) :
    ∀ k, (∀ j, 1 ≤ j → j ≤ k → numCheckAt j t = none) → numTryLens k t = none := by
  intro k
  induction k with
  | zero => intro _; rfl
  | succ k2 ih =>
    intro h
    unfold numTryLens
    rw [h (k2 + 1) (by omega) (Nat.le_refl _)]
    exact ih (fun j h1 h2 => h j h1 (by omega))

/-- The greedy-with-backtracking numbered-item regex coincides with the
direct maximal-digit-run decomposition. -/
theorem numFromRegex_eq_numSpecA (t : List Char) : numFromRegex t = numSpecA t := by
  unfold numFromRegex
  cases hm : (t.takeWhile Char.isDigit).length with
  | zero =>
    have he : t.takeWhile Char.isDigit = [] := List.length_eq_zero.mp hm
    unfold numSpecA
    cases hd : t.dropWhile Char.isDigit with
    | nil => rfl
    | cons c cs =>
      cases cs with
      | nil => rfl
      | cons w rest => simp [numTryLens, he]
  | succ m =>
    have htop : numCheckAt (m + 1) t = numSpecA t := by
      unfold numCheckAt numSpecA
      rw [← hm, take_takeWhile_length, drop_takeWhile_length]
      have hne : t.takeWhile Char.isDigit ≠ [] := by
        intro he
        rw [he] at hm
        exact absurd hm (by simp)
      cases hd : t.dropWhile Char.isDigit with
      | nil => rfl
      | cons c cs =>
        cases cs with
        | nil => rfl
        | cons w rest => simp [takeWhile_all_true, hne]
    have hlow : ∀ j, 1 ≤ j → j ≤ m → numCheckAt j t = none :=
      fun j h1 h2 => numCheckAt_none_lt t j (by omega)
    unfold numTryLens
    cases hc : numCheckAt (m + 1) t with
    | some r =>
      rw [htop] at hc
      rw [hc]
    | none =>
      rw [← htop, hc]
      exact numTryLens_none t m hlow

/-- The source classifier agrees with the claim-worded classifier once the
numbered rule is amended to accept any single whitespace separator. -/
theorem classifyLine_eq_specA (line : String) : classifyLine line = classifySpecA line := by
  unfold classifyLine classifySpecA
  simp only [numFromRegex_eq_numSpecA]

/-! ### Inline-scanner reconstruction lemmas

The scanner loses no characters and invents none: re-inserting the markers
around every span and concatenating restores the input exactly.  In
particular every character the regex never matched (stray or unterminated
markers included) is still present, in order, inside the plain spans. -/

theorem boldAux_append :
    ∀ (cs content rest : List Char), boldAux cs = some (content, rest) →
      cs = content ++ '*' :: '*' :: rest := by
  intro cs
  induction cs with
  | nil => intro content rest h; simp [boldAux] at h
  | cons c1 tl ih =>
    intro content rest h
    cases tl with
    | nil => simp [boldAux] at h
    | cons c2 tl2 =>
      rw [boldAux] at h
      by_cases h1 : c1 = '*' ∧ c2 = '*'
      · rw [if_pos h1] at h
        simp only [Option.some.injEq, Prod.mk.injEq] at h
        obtain ⟨h3, h4⟩ := h
        subst h3
        subst h4
        simp [h1.1, h1.2]
      · rw [if_neg h1] at h
        by_cases h2 : isLineTerm c1 = true
        · rw [if_pos h2] at h
          simp at h
        · rw [if_neg h2] at h
          cases hb : boldAux (c2 :: tl2) with
          | none => rw [hb] at h; simp at h
          | some p =>
            rw [hb] at h
            simp only [Option.map_some', Option.some.injEq, Prod.mk.injEq] at h
            obtain ⟨h3, h4⟩ := h
            subst h3
            subst h4
            have hp := ih p.1 p.2 (by rw [hb])
            simp [hp]

theorem codeAux_append :
    ∀ (cs content rest : List Char), codeAux cs = some (content, rest) →
      cs = content ++ btick :: rest := by
  intro cs
  induction cs with
  | nil => intro content rest h; simp [codeAux] at h
  | cons c tl ih =>
    intro content rest h
    rw [codeAux] at h
    by_cases h1 : c = btick
    · rw [if_pos h1] at h
      simp only [Option.some.injEq, Prod.mk.injEq] at h
      obtain ⟨h3, h4⟩ := h
      subst h3
      subst h4
      simp [h1]
    · rw [if_neg h1] at h
      by_cases h2 : isLineTerm c = true
      · rw [if_pos h2] at h
        simp at h
      · rw [if_neg h2] at h
        cases hb : codeAux tl with
        | none => rw [hb] at h; simp at h
        | some p =>
          rw [hb] at h
          simp only [Option.map_some', Option.some.injEq, Prod.mk.injEq] at h
          obtain ⟨h3, h4⟩ := h
          subst h3
          subst h4
          have hp := ih p.1 p.2 (by rw [hb])
          simp [hp]

theorem boldClose_append (cs content rest : List Char)
    (h : boldClose cs = some (content, rest)) :
    cs = content ++ '*' :: '*' :: rest ∧ content ≠ [] := by
  cases cs with
  | nil => simp [boldClose] at h
  | cons c tl =>
    rw [boldClose] at h
    by_cases h2 : isLineTerm c = true
    · rw [if_pos h2] at h
      simp at h
    · rw [if_neg h2] at h
      cases hb : boldAux tl with
      | none => rw [hb] at h; simp at h
      | some p =>
        rw [hb] at h
        simp only [Option.map_some', Option.some.injEq, Prod.mk.injEq] at h
        obtain ⟨h3, h4⟩ := h
        subst h3
        subst h4
        have hp := boldAux_append tl p.1 p.2 (by rw [hb])
        simp [hp]

theorem codeClose_append (cs content rest : List Char)
    (h : codeClose cs = some (content, rest)) :
    cs = content ++ btick :: rest ∧ content ≠ [] := by
  cases cs with
  | nil => simp [codeClose] at h
  | cons c tl =>
    rw [codeClose] at h
    by_cases h2 : isLineTerm c = true
    · rw [if_pos h2] at h
      simp at h
    · rw [if_neg h2] at h
      cases hb : codeAux tl with
      | none => rw [hb] at h; simp at h
      | some p =>
        rw [hb] at h
        simp only [Option.map_some', Option.some.injEq, Prod.mk.injEq] at h
        obtain ⟨h3, h4⟩ := h
        subst h3
        subst h4
        have hp := codeAux_append tl p.1 p.2 (by rw [hb])
        simp [hp]

theorem tryMatchAt_split (cs rest : List Char) (sp : Span)
    (h : tryMatchAt cs = some (sp, rest)) :
    (spanText sp).toList ++ rest = cs ∧ rest.length < cs.length := by
  cases cs with
  | nil => simp [tryMatchAt] at h
  | cons c1 tl =>
    cases tl with
    | nil => simp [tryMatchAt] at h
    | cons c2 tl2 =>
      rw [tryMatchAt] at h
      by_cases h1 : c1 = '*' ∧ c2 = '*'
      · rw [if_pos h1] at h
        cases hb : boldClose tl2 with
        | none => rw [hb] at h; simp at h
        | some p =>
          rw [hb] at h
          simp only [Option.map_some', Option.some.injEq, Prod.mk.injEq] at h
          obtain ⟨h3, h4⟩ := h
          subst h4
          obtain ⟨heq, hne⟩ := boldClose_append tl2 p.1 p.2 (by rw [hb])
          constructor
          · rw [← h3]
            show ("**" ++ String.mk p.1 ++ "**").toList ++ p.2 = _
            rw [toList_append, toList_append]
            simp [heq, h1.1, h1.2]
          · rw [heq]
            simp only [List.length_cons, List.length_append]
            omega
      · rw [if_neg h1] at h
        by_cases h2 : c1 = btick
        · rw [if_pos h2] at h
          cases hb : codeClose (c2 :: tl2) with
          | none => rw [hb] at h; simp at h
          | some p =>
            rw [hb] at h
            simp only [Option.map_some', Option.some.injEq, Prod.mk.injEq] at h
            obtain ⟨h3, h4⟩ := h
            subst h4
            obtain ⟨heq, hne⟩ := codeClose_append (c2 :: tl2) p.1 p.2 (by rw [hb])
            constructor
            · rw [← h3]
              show (String.mk [btick] ++ String.mk p.1 ++ String.mk [btick]).toList ++ p.2 = _
              rw [toList_append, toList_append]
              simp [heq, h2]
            · have hl : (c2 :: tl2).length = p.1.length + 1 + p.2.length := by
                rw [heq]
                simp only [List.length_cons, List.length_append]
                omega
              simp only [List.length_cons] at hl ⊢
              omega
        · rw [if_neg h2] at h
          simp at h

theorem str_append_empty (s : String) : s ++ "" = s := by
  cases s with
  | mk l =>
    show String.mk (l ++ []) = String.mk l
    rw [List.append_nil]

theorem flushAcc_join (acc : List Char) (l : List Span) :
    spanJoin (flushAcc acc l) = String.mk acc.reverse ++ spanJoin l := by
  cases acc with
  | nil => exact (empty_append_str _).symm
  | cons c tl => rfl

theorem scanAux_join :
    ∀ (fuel : Nat) (cs acc : List Char), cs.length ≤ fuel →
      spanJoin (scanAux fuel acc cs) = String.mk (acc.reverse ++ cs) := by
  intro fuel
  induction fuel with
  | zero =>
    intro cs acc h
    have hnil : cs = [] := List.length_eq_zero.mp (Nat.le_zero.mp h)
    subst hnil
    show spanJoin (flushAcc acc []) = _
    rw [flushAcc_join]
    show _ ++ "" = _
    rw [str_append_empty, List.append_nil]
  | succ fuel ih =>
    intro cs acc h
    cases cs with
    | nil =>
      show spanJoin (flushAcc acc []) = _
      rw [flushAcc_join]
      show _ ++ "" = _
      rw [str_append_empty, List.append_nil]
    | cons c rest =>
      show spanJoin (match tryMatchAt (c :: rest) with
        | some (sp, rest2) => flushAcc acc (sp :: scanAux fuel [] rest2)
        | none => scanAux fuel (c :: acc) rest) = _
      cases hm : tryMatchAt (c :: rest) with
      | some p =>
        obtain ⟨heq, hlt⟩ := tryMatchAt_split (c :: rest) p.2 p.1 (by rw [hm])
        have hlen : p.2.length ≤ fuel := by
          simp only [List.length_cons] at hlt h
          omega
        rw [flushAcc_join]
        show String.mk acc.reverse ++ (spanText p.1 ++ spanJoin (scanAux fuel [] p.2)) = _
        rw [ih p.2 [] hlen]
        rw [List.reverse_nil, List.nil_append]
        rw [← strMk_toList (spanText p.1), ← strMk_append, ← strMk_append, heq]
      | none =>
        rw [ih rest (c :: acc) (by simp only [List.length_cons] at h; omega)]
        simp

theorem renderInline_join (s : String) : spanJoin (renderInline s) = s := by
  unfold renderInline
  rw [scanAux_join s.toList.length s.toList [] (Nat.le_refl _)]
  rw [List.reverse_nil, List.nil_append]
  exact strMk_toList s


/-! ### The claims -/

/-- C1: the response normalizer never propagates a failure for any input
payload.  In the modelled semantics every fallible builtin in the strategy
chain is already handled (`JSON.parse` failure by the inner catch), so the
`try` body `parseAgentResponseE` completes with `Except.ok` on every payload
— `null`, `undefined`, primitives, arrays, invalid-JSON strings, malformed
objects — and `parseAgentResponse` returns that result; by its definition, an
exception escaping the chain would be replaced by the fixed
`"Unable to parse response."` with empty suggestions rather than thrown. -/
theorem C1_normalize_never_fails (v : JsValue) :
    ∃ r : NormalizedResponse,
      parseAgentResponseE v = Except.ok r ∧ parseAgentResponse v = r := by
  have hok : ∃ r, parseAgentResponseE v = Except.ok r := by
    unfold parseAgentResponseE
    split
    · exact ⟨_, rfl⟩
    · split
      · split
        · exact ⟨_, rfl⟩
        · exact ⟨_, rfl⟩
      · exact ⟨_, rfl⟩
  obtain ⟨r, hr⟩ := hok
  refine ⟨r, hr, ?_⟩
  unfold parseAgentResponse
  rw [hr]

/-- C2 (amended): for every payload whose `data.response` field is truthy
(JS truthiness, rather than the claim's “non-empty when coerced to string”),
the normalizer returns the string coercion of `data.response` as `text`, and
the sibling `data.follow_up_suggestions` verbatim as `suggestions` when it is
an array, else no suggestions. -/
theorem C2_nested_shape (v : JsValue)
    (h : truthy (getField (getField v "data") "response") = true) :
    parseAgentResponse v =
      ⟨jsToString (getField (getField v "data") "response"),
        asArr (getField (getField v "data") "follow_up_suggestions")⟩ := by
  unfold parseAgentResponse parseAgentResponseE
  simp [h]

/-- C3 (amended): for every payload not matching the nested shape whose
`response` field is a non-empty string (the claim omits non-emptiness, which
the source's truthiness check also demands), the normalizer returns that
string as `text` and the sibling `follow_up_suggestions` sequence verbatim
when it is an array, else no suggestions. -/
theorem C3_flat_shape (v : JsValue) (s : String)
    (h1 : truthy (getField (getField v "data") "response") = false)
    (h2 : getField v "response" = JsValue.str s) (h3 : s ≠ "") :
    parseAgentResponse v = ⟨s, asArr (getField v "follow_up_suggestions")⟩ := by
  unfold parseAgentResponse parseAgentResponseE
  rw [h1, h2]
  simp [h3]

/-- C4 (amended): a string payload is JSON-parsed; on success a truthy
`data.response` gives the nested extraction (with suggestions), else a truthy
`response` field — of any type, coerced with `String(..)`, not only a string
— gives that coercion without suggestions; if the parse fails, or the parsed
value matches neither shape, the original string itself is the text. -/
theorem C4_string_payload (s : String) :
    parseAgentResponse (JsValue.str s) =
      (match jsonParse s with
       | some parsed =>
         if truthy (getField (getField parsed "data") "response") then
           ⟨jsToString (getField (getField parsed "data") "response"),
             asArr (getField (getField parsed "data") "follow_up_suggestions")⟩
         else if truthy (getField parsed "response") then
           ⟨jsToString (getField parsed "response"), JsList.nil⟩
         else ⟨s, JsList.nil⟩
       | none => ⟨s, JsList.nil⟩) := by
  show stringStrategy s = _
  unfold stringStrategy
  cases hj : jsonParse s with
  | none => rfl
  | some parsed =>
    have hg : genericFallback (JsValue.str s) = ⟨s, JsList.nil⟩ := rfl
    simp [hg]

/-- Helper: the generic fallback written as one nested conditional (the
nullish test hoisted out of the source's `result != null` branch). -/
theorem genericFallback_cases (v : JsValue) :
    genericFallback v =
      ⟨if truthy (getField v "summary") then jsToString (getField v "summary")
        else if truthy (getField v "text") then jsToString (getField v "text")
        else if truthy (getField v "message") then jsToString (getField v "message")
        else if truthy (getField v "answer") then jsToString (getField v "answer")
        else if isNullish v then "No response received."
        else if isObjType v then jsonStringify v
        else jsToString v, JsList.nil⟩ := by
  unfold genericFallback
  split_ifs <;> simp_all

/-- C5 (amended): for payloads matching none of the nested, flat, or string
strategies, the first truthy (not merely present non-null) field among
`summary`, `text`, `message`, `answer` is coerced to string; with none
truthy, a nullish payload yields `"No response received."`, an object or
array is serialized with indentation, and any other primitive is coerced
with `String(..)`; suggestions are empty throughout. -/
theorem C5_generic_fallback (v : JsValue)
    (h1 : truthy (getField (getField v "data") "response") = false)
    (h2 : ∀ s : String, getField v "response" = JsValue.str s → s = "")
    (h3 : isStr v = false) :
    parseAgentResponse v =
      ⟨if truthy (getField v "summary") then jsToString (getField v "summary")
        else if truthy (getField v "text") then jsToString (getField v "text")
        else if truthy (getField v "message") then jsToString (getField v "message")
        else if truthy (getField v "answer") then jsToString (getField v "answer")
        else if isNullish v then "No response received."
        else if isObjType v then jsonStringify v
        else jsToString v, JsList.nil⟩ := by
  have hrest : restStrategies v = genericFallback v := by
    cases v with
    | str s => exact absurd h3 (by simp [isStr])
    | undefV => rfl
    | null => rfl
    | bool b => rfl
    | num n => rfl
    | arr l => rfl
    | obj f => rfl
  have hmain : parseAgentResponse v = restStrategies v := by
    unfold parseAgentResponse parseAgentResponseE
    rw [h1]
    cases hr : getField v "response" with
    | str s =>
      have := h2 s hr
      subst this
      simp
    | undefV => simp
    | null => simp
    | bool b => simp
    | num n => simp
    | arr l => simp
    | obj f => simp
  rw [hmain, hrest, genericFallback_cases]


/-- C2 counterexample: the payload `\x7bdata: \x7bresponse: 0\x7d\x7d` has a
`data.response` that is non-empty when coerced to string (`"0"`), yet the
normalizer does not return that coercion: `0` is falsy, so the nested
strategy is skipped and the whole object is JSON-serialized instead. -/
theorem C2_counterexample :
    jsToString (getField (getField
        (JsValue.obj (.cons "data" (.obj (.cons "response" (.num 0) .nil)) .nil))
        "data") "response") = "0" ∧
    (parseAgentResponse
        (JsValue.obj (.cons "data" (.obj (.cons "response" (.num 0) .nil)) .nil))).text =
      "\x7b\n  \"data\": \x7b\n    \"response\": 0\n  \x7d\n\x7d" ∧
    (parseAgentResponse
        (JsValue.obj (.cons "data" (.obj (.cons "response" (.num 0) .nil)) .nil))).text ≠ "0" := by
  refine ⟨by decide, by decide, by decide⟩

/-- C2 witness: the amended theorem applied to
`\x7bdata: \x7bresponse: "X", follow_up_suggestions: ["s1", "s2"]\x7d\x7d`. -/
theorem C2_witness :
    truthy (getField (getField
        (JsValue.obj (.cons "data" (.obj (.cons "response" (.str "X")
          (.cons "follow_up_suggestions" (.arr (.cons (.str "s1") (.cons (.str "s2") .nil)))
            .nil))) .nil)) "data") "response") = true ∧
    parseAgentResponse
        (JsValue.obj (.cons "data" (.obj (.cons "response" (.str "X")
          (.cons "follow_up_suggestions" (.arr (.cons (.str "s1") (.cons (.str "s2") .nil)))
            .nil))) .nil)) =
      ⟨"X", .cons (.str "s1") (.cons (.str "s2") .nil)⟩ :=
  ⟨by decide, (C2_nested_shape _ (by decide)).trans (by decide)⟩

/-- C3 counterexample: the payload `\x7bresponse: ""\x7d` has a `response`
field that is specifically a string, yet the normalizer does not return that
string: the empty string is falsy, so the flat strategy is skipped and the
whole object is JSON-serialized instead. -/
theorem C3_counterexample :
    getField (JsValue.obj (.cons "response" (.str "") .nil)) "response" = JsValue.str "" ∧
    (parseAgentResponse (JsValue.obj (.cons "response" (.str "") .nil))).text =
      "\x7b\n  \"response\": \"\"\n\x7d" ∧
    (parseAgentResponse (JsValue.obj (.cons "response" (.str "") .nil))).text ≠ "" := by
  refine ⟨by decide, by decide, by decide⟩

/-- C3 witness: the amended theorem applied to
`\x7bresponse: "Y", follow_up_suggestions: ["a"]\x7d`. -/
theorem C3_witness :
    truthy (getField (getField
        (JsValue.obj (.cons "response" (.str "Y")
          (.cons "follow_up_suggestions" (.arr (.cons (.str "a") .nil)) .nil)))
        "data") "response") = false ∧
    getField (JsValue.obj (.cons "response" (.str "Y")
        (.cons "follow_up_suggestions" (.arr (.cons (.str "a") .nil)) .nil))) "response" =
      JsValue.str "Y" ∧
    parseAgentResponse (JsValue.obj (.cons "response" (.str "Y")
        (.cons "follow_up_suggestions" (.arr (.cons (.str "a") .nil)) .nil))) =
      ⟨"Y", .cons (.str "a") .nil⟩ :=
  ⟨by decide, by decide,
    (C3_flat_shape _ "Y" (by decide) (by decide) (by decide)).trans (by decide)⟩

/-- C4 counterexample: the string payload `'\x7b"response":""\x7d'` parses as
JSON to a response-only flat shape whose `response` is specifically a string,
so the claim requires the flat extraction (`text = ""`); the source instead
falls through (the parsed `response` is falsy) and returns the original
string. -/
theorem C4_counterexample :
    jsonParse "\x7b\"response\":\"\"\x7d" =
      some (JsValue.obj (.cons "response" (.str "") .nil)) ∧
    (parseAgentResponse (JsValue.str "\x7b\"response\":\"\"\x7d")).text =
      "\x7b\"response\":\"\"\x7d" ∧
    "\x7b\"response\":\"\"\x7d" ≠ "" := by
  refine ⟨by decide, by decide, by decide⟩

/-- C5 counterexample: in `\x7bsummary: ""\x7d` the field `summary` is
present and non-null, so the claim requires `text = String("") = ""`; the
source's truthiness test skips the falsy empty string and serializes the
whole object instead. -/
theorem C5_counterexample :
    getField (JsValue.obj (.cons "summary" (.str "") .nil)) "summary" = JsValue.str "" ∧
    jsToString (JsValue.str "") = "" ∧
    (parseAgentResponse (JsValue.obj (.cons "summary" (.str "") .nil))).text =
      "\x7b\n  \"summary\": \"\"\n\x7d" ∧
    (parseAgentResponse (JsValue.obj (.cons "summary" (.str "") .nil))).text ≠ "" := by
  refine ⟨by decide, by decide, by decide, by decide⟩

/-- C5 witness: the amended theorem applied to `\x7banswer: "ok"\x7d`. -/
theorem C5_witness :
    truthy (getField (getField (JsValue.obj (.cons "answer" (.str "ok") .nil)) "data")
        "response") = false ∧
    isStr (JsValue.obj (.cons "answer" (.str "ok") .nil)) = false ∧
    parseAgentResponse (JsValue.obj (.cons "answer" (.str "ok") .nil)) = ⟨"ok", JsList.nil⟩ :=
  ⟨by decide, by decide,
    (C5_generic_fallback _ (by decide) (fun s h => JsValue.noConfusion h) (by decide)).trans (by decide)⟩


/-- C6 counterexample: on the line `"1.\tx"` (digits, dot, tab, text) the
renderer produces a numbered item — the regex class `\s` accepts the tab —
whereas the claim's “exactly one space” rule classifies it as a paragraph. -/
theorem C6_counterexample :
    renderBlocks "1.\tx" ≠ (splitLines "1.\tx").map classifySpec := by
  decide

/-- C6 (amended): the renderer classifies every line of its input
independently, trimmed, in the claimed priority order (blank, `"### "`,
`"## "`, `"# "`, `"- "`/`"* "`, numbered, paragraph), displaying the literal
captured digit string of a numbered item unchanged — with the numbered rule
amended from “exactly one space” to “exactly one whitespace character” after
the dot, and with the captured remaining text running only up to the first
line terminator (of which there must be at least one character; a carriage
return thus truncates the content, and a remainder starting with one leaves
the line a paragraph). -/
theorem C6_line_classification :
    (∀ content : String, renderBlocks content = (splitLines content).map classifySpecA) ∧
    renderBlocks "1. a\rb" = [.numbered "1" "a"] ∧
    renderBlocks "1. \rx" = [.para "1. \rx"] :=
  ⟨fun content => by
    unfold renderBlocks
    exact List.map_congr_left (fun a _ => classifyLine_eq_specA a),
  by decide, by decide⟩

/-- C7: inline span scanning. The claimed example parses to
`[bold("bold"), plain(" and "), code("code")]`; for every input the scanner
is lossless — re-inserting the markers around each span and concatenating
restores the input exactly, so text between and around matches survives as
plain spans — and unterminated markers (`"**bold"`, a stray backtick) are
rendered as plain text, not spans. -/
theorem C7_inline_spans :
    renderInline "**bold** and `code`" = [.bold "bold", .plain " and ", .code "code"] ∧
    (∀ s : String, spanJoin (renderInline s) = s) ∧
    renderInline "**bold" = [.plain "**bold"] ∧
    renderInline "a `x" = [.plain "a `x"] :=
  ⟨by decide, renderInline_join, by decide, by decide⟩

/-- C8: while `isLoading` is set, any submission attempt is a no-op: the
state (transcript included) is returned unchanged and no agent call is
issued (the returned flag is `false`), so at most one call is in flight. -/
theorem C8_loading_noop (st : AppState) (text ts rts : String) (outcome : AgentOutcome)
    (h : st.isLoading = true) :
    sendMessage st text ts rts outcome = (st, false) := by
  unfold sendMessage
  simp [h]

/-- C8 witness: a loading state with a non-empty submission. -/
theorem C8_witness :
    (AppState.mk [] true 0).isLoading = true ∧
    sendMessage (AppState.mk [] true 0) "hello" "t1" "t2" (.ok (JsValue.obj .nil)) =
      (AppState.mk [] true 0, false) :=
  ⟨rfl, C8_loading_noop _ _ _ _ _ rfl⟩

/-- C9: every turn that begins (non-empty trimmed submission while not
loading) appends exactly the user entry plus one terminal assistant entry:
a non-error message with the normalized (or placeholder) text on success; an
error-flagged message with the `error` field, else the nested
`response.message`, else the fixed generic string (first truthy wins) on an
agent-reported failure; an error-flagged fixed network-error message when
the call throws — never zero and never more than one. -/
theorem C9_one_terminal_entry (st : AppState) (text ts rts : String) (outcome : AgentOutcome)
    (h1 : String.mk (trimChars text.toList) ≠ "") (h2 : st.isLoading = false) :
    ∃ am : ChatMessage,
      (sendMessage st text ts rts outcome).1.messages =
        st.messages ++
          [⟨msgId (st.idCounter + 1), .user, .str (String.mk (trimChars text.toList)),
              ts, none, false⟩, am] ∧
      am.role = .assistant ∧
      (match outcome with
       | .ok result =>
         if truthy (getField result "success") = true then
           am.isError = false ∧
           am.content = .str
             (if (parseAgentResponse (getField (getField result "response") "result")).text = ""
              then "I received your message but have no response to display."
              else (parseAgentResponse (getField (getField result "response") "result")).text)
         else
           am.isError = true ∧
           am.content =
             jsOr (getField result "error")
               (jsOr (getField (getField result "response") "message")
                 (.str "Something went wrong. Please try again."))
       | .threw =>
         am.isError = true ∧
         am.content =
           .str "A network error occurred. Please check your connection and try again.") := by
  have hd : decide (String.mk (trimChars text.toList) = "") = false := decide_eq_false h1
  unfold sendMessage
  simp only [h2, hd, Bool.or_false, Bool.false_eq_true, if_false]
  cases outcome with
  | ok result =>
    dsimp only
    by_cases hs : truthy (getField result "success") = true
    · refine ⟨⟨msgId (st.idCounter + 1 + 1), .assistant,
        .str (if (parseAgentResponse (getField (getField result "response") "result")).text = ""
              then "I received your message but have no response to display."
              else (parseAgentResponse (getField (getField result "response") "result")).text),
        rts, some (parseAgentResponse (getField (getField result "response") "result")).suggestions,
        false⟩, ?_, rfl, ?_⟩
      · rw [if_pos hs]
      · rw [if_pos hs]
        exact ⟨rfl, rfl⟩
    · refine ⟨⟨msgId (st.idCounter + 1 + 1), .assistant,
        jsOr (getField result "error")
          (jsOr (getField (getField result "response") "message")
            (.str "Something went wrong. Please try again.")),
        rts, none, true⟩, ?_, rfl, ?_⟩
      · rw [if_neg hs]
      · rw [if_neg hs]
        exact ⟨rfl, rfl⟩
  | threw =>
    dsimp only
    exact ⟨⟨msgId (st.idCounter + 1 + 1), .assistant,
      .str "A network error occurred. Please check your connection and try again.",
      rts, none, true⟩, rfl, rfl, rfl, rfl⟩

/-- C10: when the agent call succeeds but the normalizer extracts an empty
text, the appended assistant entry carries the fixed placeholder
`"I received your message but have no response to display."` rather than the
empty string. -/
theorem C10_empty_text_placeholder (st : AppState) (text ts rts : String) (r : JsValue)
    (h1 : String.mk (trimChars text.toList) ≠ "") (h2 : st.isLoading = false)
    (h3 : truthy (getField r "success") = true)
    (h4 : (parseAgentResponse (getField (getField r "response") "result")).text = "") :
    ∃ um am : ChatMessage,
      (sendMessage st text ts rts (.ok r)).1.messages = st.messages ++ [um, am] ∧
      am.role = .assistant ∧ am.isError = false ∧
      am.content = .str "I received your message but have no response to display." := by
  have hd : decide (String.mk (trimChars text.toList) = "") = false := decide_eq_false h1
  unfold sendMessage
  simp only [h2, hd, Bool.or_false, Bool.false_eq_true, if_false]
  refine ⟨⟨msgId (st.idCounter + 1), .user,
      .str (String.mk (trimChars text.toList)), ts, none, false⟩,
    ⟨msgId (st.idCounter + 1 + 1), .assistant,
      .str (if (parseAgentResponse (getField (getField r "response") "result")).text = ""
            then "I received your message but have no response to display."
            else (parseAgentResponse (getField (getField r "response") "result")).text),
      rts, some (parseAgentResponse (getField (getField r "response") "result")).suggestions,
      false⟩, ?_, rfl, rfl, ?_⟩
  · rw [if_pos h3]
  · rw [if_pos h4]


/-- C9 witness: a successful turn from the empty transcript with payload
`\x7bdata: \x7bresponse: "Hi there!"\x7d\x7d`. -/
theorem C9_witness :
    String.mk (trimChars "Hello".toList) ≠ "" ∧
    (AppState.mk [] false 0).isLoading = false ∧
    ∃ am : ChatMessage,
      (sendMessage (AppState.mk [] false 0) "Hello" "t1" "t2"
          (.ok (JsValue.obj (.cons "success" (.bool true)
            (.cons "response" (.obj (.cons "result"
              (.obj (.cons "data" (.obj (.cons "response" (.str "Hi there!") .nil)) .nil))
              .nil)) .nil))))).1.messages =
        [⟨msgId 1, .user, .str "Hello", "t1", none, false⟩, am] ∧
      am.role = .assistant ∧ am.isError = false ∧ am.content = .str "Hi there!" := by
  obtain ⟨am, hmsg, hrole, hrest⟩ :=
    C9_one_terminal_entry (AppState.mk [] false 0) "Hello" "t1" "t2"
      (.ok (JsValue.obj (.cons "success" (.bool true)
        (.cons "response" (.obj (.cons "result"
          (.obj (.cons "data" (.obj (.cons "response" (.str "Hi there!") .nil)) .nil))
          .nil)) .nil)))) (by decide) rfl
  have hrest2 : am.isError = false ∧ am.content = .str "Hi there!" := hrest
  exact ⟨by decide, rfl, am, hmsg, hrole, hrest2.1, hrest2.2⟩

/-- C10 witness: a success outcome whose `response.result` is the empty
string, which normalizes to empty text. -/
theorem C10_witness :
    truthy (getField (JsValue.obj (.cons "success" (.bool true)
        (.cons "response" (.obj (.cons "result" (.str "") .nil)) .nil))) "success") = true ∧
    (parseAgentResponse (getField (getField (JsValue.obj (.cons "success" (.bool true)
        (.cons "response" (.obj (.cons "result" (.str "") .nil)) .nil))) "response")
        "result")).text = "" ∧
    ∃ um am : ChatMessage,
      (sendMessage (AppState.mk [] false 0) "hi" "t1" "t2"
          (.ok (JsValue.obj (.cons "success" (.bool true)
            (.cons "response" (.obj (.cons "result" (.str "") .nil)) .nil))))).1.messages =
        [um, am] ∧
      am.content = .str "I received your message but have no response to display." := by
  obtain ⟨um, am, hmsg, hrole, herr, hcontent⟩ :=
    C10_empty_text_placeholder (AppState.mk [] false 0) "hi" "t1" "t2"
      (JsValue.obj (.cons "success" (.bool true)
        (.cons "response" (.obj (.cons "result" (.str "") .nil)) .nil)))
      (by decide) rfl (by decide) (by decide)
  exact ⟨by decide, by decide, um, am, hmsg, hcontent⟩

end ChatBot
